import Mathlib

/-!
Verification development for the Mobile-Agent-v3 A2A server core
(`mobile_v3/a2a_server/` together with `mobile_v3/utils/mobile_agent_c.py`).

The development shallowly embeds, from the source:
  * the action-reply rendezvous layer: the module-level `ACTION_REPLY_FUTURES`
    dictionaries, `get_action_reply_future` (mobile_agent_a2a.py 31-38,
    textually identical in a2a_state.py 15-21), the HTTP reply handler
    `receive_action_reply` (run_a2a_server.py 233-254) and
    `A2AInterfaceReal.wait_for_client_reply` (mobile_agent_a2a.py 100-120);
  * the task control loop `MobileAgentTaskExecutor._execute_task_logic`
    (mobile_agent_a2a.py 186-376) over the `InfoPool` record
    (mobile_agent_c.py 6-46), with the language-model inference call and the
    role objects' string parsing treated as the black boxes the source treats
    them as: a run is driven by a script of already-parsed structured replies,
    exactly the fields the loop reads (`parse_response` outputs and the result
    of `json.loads` on the actor's action text);
  * the failure-log fragment of `Manager.get_prompt`
    (mobile_agent_c.py 120-128).

Python `asyncio.Future` objects are modelled as indices into a store of future
states, so that the two distinct module-level dictionaries of
mobile_agent_a2a.py and run_a2a_server.py can alias (or fail to alias) the
same future objects, as in the source.
-/

/-- Python dict values appearing in A2A event metadata: the loop only ever
stores strings and the boolean `wait_for_reply` flag. -/
inductive Val where
  | s (v : String)
  | b (v : Bool)
deriving DecidableEq, Repr

/-- An A2A event as built by `create_a2a_event` (a2a_utils.py 47-55).
The wall-clock `timestamp` field is not modelled. -/
structure Event where
  kind : String
  type : String
  taskId : Int
  metadata : List (String × Val)
deriving DecidableEq, Repr

/-- Embeds `create_a2a_event` (a2a_utils.py 47-55). -/
def create_a2a_event (event_type : String) (task_id : Int)
    (content : List (String × Val)) : Event :=
  { kind := "custom_event", type := event_type, taskId := task_id,
    metadata := content }

/-- Embeds `create_action_request_event` (a2a_utils.py 57-65). -/
def create_action_request_event (task_id : Int) (action_json : String)
    (thought : String) : Event :=
  create_a2a_event "action_request" task_id
    [("thought", .s thought), ("action_json", .s action_json),
     ("wait_for_reply", .b true),
     ("description", .s "Client must execute this action and reply with new screenshot.")]

/-- Result of `json.loads` on the actor's action text, as read by the loop:
the loop only reads the string-valued fields `action`, `text` and `status`
(mobile_agent_a2a.py 289-296), so an action object is modelled as a
string-to-string association list. -/
abbrev ActionObject := List (String × String)

/-- Python `dict.get(k)`. -/
def dictGet (d : List (String × String)) (k : String) : Option String :=
  (d.find? (fun kv => kv.1 == k)).map (fun kv => kv.2)

/-- Python `dict.get(k, default)`. -/
def dictGetD (d : List (String × String)) (k : String) (dflt : String) : String :=
  (dictGet d k).getD dflt

/-- The action-reply payload POSTed by the L2 client, as read by the loop
(mobile_agent_a2a.py 311-319): the loop reads `type` via `.get` and the three
screenshot fields via bare indexing, so each field is optional here and a
missing indexed field is a `KeyError`. -/
structure ReplyPayload where
  type : Option String
  screenshot_b64 : Option String
  screenshot_width : Option Int
  screenshot_height : Option Int
deriving DecidableEq, Repr

/-- State of an `asyncio.Future` as used by this code base: unresolved, or
resolved with an action-reply payload (`set_result`). -/
inductive FutureState where
  | pending
  | resolved (v : ReplyPayload)
deriving DecidableEq, Repr

/-- A module-level `ACTION_REPLY_FUTURES` dictionary: task id to future,
futures being indices into a store of `FutureState`. -/
abbrev FutureReg := List (Int × Nat)

/-- Python `task_id in d` / `d[task_id]` lookup on a futures dictionary. -/
def regLookup (r : FutureReg) (t : Int) : Option Nat :=
  (r.find? (fun kv => kv.1 == t)).map (fun kv => kv.2)

/-- Python `d[task_id] = fut`: replaces the value at an existing key,
otherwise appends a new entry. -/
def regInsert (r : FutureReg) (t : Int) (fid : Nat) : FutureReg :=
  if r.any (fun kv => kv.1 == t) then
    r.map (fun kv => if kv.1 == t then (t, fid) else kv)
  else
    r ++ [(t, fid)]

/-- Python `d.pop(task_id, None)` / `d.pop(task_id)`: removes the entry. -/
def regPop (r : FutureReg) (t : Int) : FutureReg :=
  r.filter (fun kv => kv.1 != t)

/-- Future `fid` is registered and not yet resolved in store `store`. -/
def isPending (store : List FutureState) (fid : Nat) : Prop :=
  store.get? fid = some .pending

/-- Python `future.done()` for a resolved future. -/
def isDone (store : List FutureState) (fid : Nat) : Bool :=
  match store.get? fid with
  | some (.resolved _) => true
  | _ => false

/-- The keys of a futures dictionary are pairwise distinct, as for any
Python dict. -/
def keysNodup (r : FutureReg) : Prop :=
  (r.map Prod.fst).Nodup

/-- Every future registered in the dictionary exists in the store, as every
value of a Python dict is a real object. -/
def regWF (store : List FutureState) (reg : FutureReg) : Prop :=
  ∀ p ∈ reg, p.2 < store.length

/-- Embeds `get_action_reply_future` (mobile_agent_a2a.py 31-38; the copy in
a2a_state.py 15-21 is textually identical): `if task_id not in d or
d[task_id].done(): d[task_id] = asyncio.Future()`, then `return d[task_id]`.
A fresh future is allocated at the end of the store.  Returns the future,
the new store and the new dictionary. -/
def get_action_reply_future (store : List FutureState) (reg : FutureReg)
    (task_id : Int) : Nat × List FutureState × FutureReg :=
  match regLookup reg task_id with
  | some fid =>
    if isDone store fid then
      let fid2 := store.length
      (fid2, store ++ [.pending], regInsert reg task_id fid2)
    else
      (fid, store, reg)
  | none =>
    let fid2 := store.length
    (fid2, store ++ [.pending], regInsert reg task_id fid2)

/-- HTTP-level outcome of `receive_action_reply`: 404 task-not-found, the
`status: ok` continuation, or the warning-level no-op for an already resolved
future. -/
inductive HttpReplyResult where
  | notFound
  | okContinued
  | alreadyDone
deriving DecidableEq, Repr

/-- Embeds `receive_action_reply` (run_a2a_server.py 233-254), the
`POST /v1/tasks/{l1_task_id}/reply` handler.  It operates on the
`ACTION_REPLY_FUTURES` dictionary defined in run_a2a_server.py itself
(line 27): 404 if the task id is absent, otherwise the future is popped and
`set_result(reply_data)` is called if it is not done, else a warning no-op. -/
def receive_action_reply (store : List FutureState) (reg : FutureReg)
    (l1_task_id : Int) (reply_data : ReplyPayload) :
    HttpReplyResult × List FutureState × FutureReg :=
  match regLookup reg l1_task_id with
  | none => (.notFound, store, reg)
  | some fid =>
    let reg1 := regPop reg l1_task_id
    match store.get? fid with
    | some .pending => (.okContinued, store.set fid (.resolved reply_data), reg1)
    | _ => (.alreadyDone, store, reg1)

/-- The `asyncio.TimeoutError` raised by `asyncio.wait_for` on expiry. -/
inductive PyTimeout where
  | timeoutError
deriving DecidableEq, Repr

/-- Embeds `A2AInterfaceReal.wait_for_client_reply` (mobile_agent_a2a.py
100-120): it obtains the task's future via `get_action_reply_future`, awaits
it with a timeout, and in a `finally` block pops the task's entry from the
executor module's dictionary.  The concurrent resolution of the future while
the loop is suspended is the environment's move and is supplied by the
`resolution` oracle: `some v` means the future is resolved with `v` within
the timeout, `none` means the timeout expires and `asyncio.TimeoutError`
is re-raised.  Returns the outcome, the new store and the new dictionary. -/
def wait_for_client_reply (store : List FutureState) (reg : FutureReg)
    (task_id : Int) (resolution : Option ReplyPayload) :
    Except PyTimeout ReplyPayload × List FutureState × FutureReg :=
  let acquired := get_action_reply_future store reg task_id
  let fid := acquired.1
  let store1 := acquired.2.1
  let reg1 := acquired.2.2
  match resolution with
  | some v => (.ok v, store1.set fid (.resolved v), regPop reg1 task_id)
  | none => (.error .timeoutError, store1, regPop reg1 task_id)

/-- The composed real-mode server state: one store of all `asyncio.Future`
objects ever created, plus the two distinct module-level dictionaries the
source actually declares: `mobile_agent_a2a.ACTION_REPLY_FUTURES` (line 29,
used by the task loops) and `run_a2a_server.ACTION_REPLY_FUTURES` (line 27,
used by the reply endpoint).  run_a2a_server.py does not import either other
dictionary and its own `get_reply_future` (lines 29-32) is never called. -/
structure A2AServerState where
  store : List FutureState
  agentFutures : FutureReg
  serverFutures : FutureReg
deriving DecidableEq, Repr

/-- The task loop registers (or re-obtains) its reply future, as the first
half of `wait_for_client_reply` does before suspending. -/
def loopRegisterStep (s : A2AServerState) (t : Int) : A2AServerState :=
  let r := get_action_reply_future s.store s.agentFutures t
  ⟨r.2.1, r.2.2, s.serverFutures⟩

/-- A complete `wait_for_client_reply` call by the task loop (register,
await with oracle `resolution`, guaranteed cleanup pop). -/
def loopWaitStep (s : A2AServerState) (t : Int)
    (resolution : Option ReplyPayload) : A2AServerState :=
  let r := wait_for_client_reply s.store s.agentFutures t resolution
  ⟨r.2.1, r.2.2, s.serverFutures⟩

/-- An inbound `POST /v1/tasks/{t}/reply` handled by `receive_action_reply`,
which reads and writes run_a2a_server.py's own dictionary. -/
def postReplyStep (s : A2AServerState) (t : Int)
    (payload : ReplyPayload) : A2AServerState :=
  let r := receive_action_reply s.store s.serverFutures t payload
  ⟨r.2.1, s.agentFutures, r.2.2⟩

/-- States of the composed real-mode server reachable from process start
(both dictionaries empty, no futures yet) under any interleaving of loop
registrations, loop waits and reply POSTs. -/
inductive Reach : A2AServerState → Prop where
  | init : Reach ⟨[], [], []⟩
  | register (s : A2AServerState) (t : Int) :
      Reach s → Reach (loopRegisterStep s t)
  | wait (s : A2AServerState) (t : Int) (resolution : Option ReplyPayload) :
      Reach s → Reach (loopWaitStep s t resolution)
  | post (s : A2AServerState) (t : Int) (payload : ReplyPayload) :
      Reach s → Reach (postReplyStep s t payload)

/-- Embeds the `InfoPool` dataclass (mobile_agent_c.py 6-46) with its field
defaults.  `action_history` elements are the decoded action objects the loop
appends (mobile_agent_a2a.py 346); the remaining generic lists never receive
elements in this code base and are typed over `String`. -/
structure InfoPool where
  instruction : String := ""
  task_name : String := ""
  additional_knowledge_manager : String := ""
  additional_knowledge_executor : String := ""
  add_info_token : String := "[add_info]"
  ui_elements_list_before : String := ""
  ui_elements_list_after : String := ""
  action_pool : List String := []
  summary_history : List String := []
  action_history : List ActionObject := []
  action_outcomes : List String := []
  error_descriptions : List String := []
  last_summary : String := ""
  last_action : String := ""
  last_action_thought : String := ""
  important_notes : String := ""
  error_flag_plan : Bool := false
  error_description_plan : Bool := false
  plan : String := ""
  completed_plan : String := ""
  progress_status : String := ""
  progress_status_history : List String := []
  finish_thought : String := ""
  current_subgoal : String := ""
  err_to_manager_thresh : Nat := 2
  future_tasks : List String := []
deriving DecidableEq, Repr

/-- Embeds `INPUT_KNOW` (mobile_agent_c.py 186). -/
def INPUT_KNOW : String :=
  "If you've activated an input field, you'll see \"ADB Keyboard {on}\" at the bottom of the screen. This phone doesn't display a soft keyboard. So, if you see \"ADB Keyboard {on}\" at the bottom of the screen, it means you can type. Otherwise, you'll need to tap the correct input field to activate it."

/-- Python slice `l[-k:]` for a non-negative `k`: the last `k` elements,
the whole list when `k = 0`. -/
def sliceLast (l : List α) (k : Nat) : List α :=
  if k = 0 then l else l.drop (l.length - k)

/-- Embeds the repeated-failure fragment of `Manager.get_prompt`
(mobile_agent_c.py 120-128): when `error_flag_plan` is set, the prompt gains
one failure-log line per element of
`zip(action_history[-k:], summary_history[-k:], error_descriptions[-k:])`
with `k = err_to_manager_thresh`; otherwise the prompt contains no failure
log.  The returned list holds exactly the zipped triples that become log
lines, so the prompt contains the recent failure log iff this list is
non-empty. -/
def managerFailureLog (p : InfoPool) : List (ActionObject × String × String) :=
  if p.error_flag_plan then
    let k := p.err_to_manager_thresh
    let recent_actions := sliceLast p.action_history k
    let recent_summaries := sliceLast p.summary_history k
    let recent_err_des := sliceLast p.error_descriptions k
    recent_actions.zip (recent_summaries.zip recent_err_des)
  else []

/-- A character Python's `str.strip()` removes (ASCII whitespace). -/
def isSpaceChar (c : Char) : Bool :=
  c == ' ' || c == '\t' || c == '\n' || c == '\r' || c == '\x0b' || c == '\x0c'

/-- Drops leading whitespace characters. -/
def dropSpaces : List Char → List Char
  | [] => []
  | c :: cs => if isSpaceChar c then dropSpaces cs else c :: cs

/-- Python `s.strip()` (used at mobile_agent_a2a.py 258 on the plan text). -/
def pyStrip (s : String) : String :=
  ⟨(dropSpaces (dropSpaces s.data).reverse).reverse⟩

/-- Whether the first list is a prefix of the second. -/
def charsStarts : List Char → List Char → Bool
  | [], _ => true
  | _ :: _, [] => false
  | p :: ps, c :: cs => p == c && charsStarts ps cs

/-- Whether `pat` occurs as a contiguous run somewhere in the list. -/
def charsHas (pat : List Char) : List Char → Bool
  | [] => charsStarts pat []
  | c :: cs => charsStarts pat (c :: cs) || charsHas pat cs

/-- Python `pat in s` substring containment (used at mobile_agent_a2a.py 258
for the `"Finished"` sentinel check). -/
def strContains (s pat : String) : Bool :=
  charsHas pat.data s.data

/-- One scripted language-model inference result, already parsed: the
inference call and the role objects' `parse_response` string extraction are
the black boxes the spec scopes out, so a run is driven by the structured
fields the loop actually reads.  For the executor, `decoded` is the result
of `json.loads` on the `action` text (`none` models
`json.JSONDecodeError`). -/
inductive VlmReply where
  | manager (thought : String) (completed_subgoal : String) (plan : String)
  | executorReply (thought : String) (action : String)
      (decoded : Option ActionObject) (description : String)
  | reflector (outcome : String) (error_description : String)
  | notetakerReply (important_notes : String)
deriving DecidableEq, Repr

/-- One scripted behaviour of the external client at a
`wait_for_client_reply` suspension: either a reply payload arrives in time,
or the wait times out and `asyncio.TimeoutError` propagates. -/
inductive ClientOutcome where
  | reply (r : ReplyPayload)
  | timeout
deriving DecidableEq, Repr

/-- Which role object a recorded inference call belongs to. -/
inductive CallKind where
  | manager
  | executor
  | reflector
  | notetaker
deriving DecidableEq, Repr

/-- One recorded `predict_mm` inference call: the role, the image list passed
to the call, and the `InfoPool` snapshot the role's `get_prompt` was built
from. -/
structure VlmCall where
  kind : CallKind
  images : List String
  pool : InfoPool
deriving DecidableEq, Repr

/-- How a `_execute_task_logic` run that pushed its terminal event ended:
finished-sentinel plan, explicit `answer` action, reply of unexpected kind,
or exhaustion of the `range(max_step)` loop. -/
inductive EndKind where
  | finishedPlan
  | answered
  | invalidReply
  | exhausted
deriving DecidableEq, Repr

/-- An exception propagating out of `_execute_task_logic`:
`asyncio.TimeoutError` from the reply wait, `KeyError` from indexing a reply
dict, or the modelling artifacts of an exhausted / wrongly-shaped inference
script. -/
inductive PyError where
  | timeoutError
  | keyError (k : String)
  | scriptEnd
  | scriptKind
deriving DecidableEq, Repr

/-- Result of a `_execute_task_logic` run: normal completion (the code does
not distinguish these endings in its return value; `EndKind` records which
path ran) or a propagated exception. -/
inductive TaskResult where
  | completed (ending : EndKind)
  | error (e : PyError)
deriving DecidableEq, Repr

/-- The mutable loop state at the top of each `for step in range(max_step)`
iteration (mobile_agent_a2a.py 221-225), plus the unconsumed scripts. -/
structure LoopState where
  pool : InfoPool
  current_screenshot_b64 : String
  current_width : Int
  current_height : Int
  vlm : List VlmReply
  client : List ClientOutcome
deriving DecidableEq, Repr

/-- Everything observable about a run: how it ended, the events pushed to the
A2A interface in order, the inference calls made in order, and the final
`InfoPool`. -/
structure RunResult where
  result : TaskResult
  events : List Event
  calls : List VlmCall
  pool : InfoPool
deriving DecidableEq, Repr

/-- The unconditional success terminal event pushed after the loop
(mobile_agent_a2a.py 376). -/
def finalizedSuccess (task_id : Int) : Event :=
  create_a2a_event "task_finalized" task_id [("status", .s "success")]

/-- The failure terminal event pushed on a reply of unexpected kind
(mobile_agent_a2a.py 313). -/
def finalizedInvalidReply (task_id : Int) : Event :=
  create_a2a_event "task_finalized" task_id
    [("status", .s "failed"), ("reason", .s "Invalid action reply from L2")]

/-- Embeds the body of `_execute_task_logic` (mobile_agent_a2a.py 225-376):
the `for step in range(max_step)` loop by recursion on the remaining step
count, followed by the unconditional `task_finalized: success` push at line
376.  Each iteration mirrors the source order: Manager call and plan update,
finished-sentinel check (258), Executor call and `json.loads` (267-280,
`continue` on decode failure), `answer` short-circuit (290-300),
action-request push and reply wait (304-309), reply-kind check (311-314),
reply field reads (317-320, `KeyError` on a missing key) with
`current_screenshot_b64` already overwritten by the after-screenshot before
the Reflector call (320 versus 332-334), Reflector call and history appends
(327-352), conditional Notetaker (355-369), and the screenshot rollover
(372). -/
def loopRun (task_id : Int) (if_notetaker : Bool) :
    Nat → LoopState → RunResult
  | 0, st => ⟨.completed .exhausted, [finalizedSuccess task_id], [], st.pool⟩
  | n + 1, st =>
    match st.vlm with
    | [] => ⟨.error .scriptEnd, [], [], st.pool⟩
    | .manager thought completed_subgoal plan :: vlm1 =>
      let managerCall : VlmCall := ⟨.manager, [st.current_screenshot_b64], st.pool⟩
      let pool1 := { st.pool with completed_plan := completed_subgoal, plan := plan }
      let evPlan := create_a2a_event "manager_plan" task_id
        [("plan", .s pool1.plan), ("thought", .s thought)]
      if strContains (pyStrip pool1.plan) "Finished" then
        ⟨.completed .finishedPlan, [evPlan, finalizedSuccess task_id],
          [managerCall], pool1⟩
      else
        match vlm1 with
        | .executorReply action_thought action_object_str decoded _descr :: vlm2 =>
          let executorCall : VlmCall := ⟨.executor, [st.current_screenshot_b64], pool1⟩
          match decoded with
          | none =>
            let r := loopRun task_id if_notetaker n
              { st with pool := pool1, vlm := vlm2 }
            ⟨r.result, evPlan :: r.events, managerCall :: executorCall :: r.calls, r.pool⟩
          | some action_object =>
            if dictGet action_object "action" == some "answer" then
              let evAns := create_a2a_event "final_answer" task_id
                [("text", .s (dictGetD action_object "text" "Task completed.")),
                 ("status", .s (dictGetD action_object "status" "success"))]
              ⟨.completed .answered, [evPlan, evAns, finalizedSuccess task_id],
                [managerCall, executorCall], pool1⟩
            else
              let evReq := create_action_request_event task_id action_object_str action_thought
              match st.client with
              | [] => ⟨.error .scriptEnd, [evPlan, evReq],
                  [managerCall, executorCall], pool1⟩
              | .timeout :: _ =>
                ⟨.error .timeoutError, [evPlan, evReq],
                  [managerCall, executorCall], pool1⟩
              | .reply reply :: client1 =>
                if reply.type != some "action_reply" then
                  ⟨.completed .invalidReply,
                    [evPlan, evReq, finalizedInvalidReply task_id, finalizedSuccess task_id],
                    [managerCall, executorCall], pool1⟩
                else
                  match reply.screenshot_b64 with
                  | none => ⟨.error (.keyError "screenshot_b64"), [evPlan, evReq],
                      [managerCall, executorCall], pool1⟩
                  | some screenshot_after_b64 =>
                    match reply.screenshot_width with
                    | none => ⟨.error (.keyError "screenshot_width"), [evPlan, evReq],
                        [managerCall, executorCall], pool1⟩
                    | some current_width =>
                      match reply.screenshot_height with
                      | none => ⟨.error (.keyError "screenshot_height"), [evPlan, evReq],
                          [managerCall, executorCall], pool1⟩
                      | some current_height =>
                        let current_screenshot_b64 := screenshot_after_b64
                        match vlm2 with
                        | .reflector outcome error_description :: vlm3 =>
                          let reflectorCall : VlmCall :=
                            ⟨.reflector, [current_screenshot_b64, screenshot_after_b64], pool1⟩
                          let pool2 := { pool1 with
                            action_history := pool1.action_history ++ [action_object],
                            action_outcomes := pool1.action_outcomes ++ [outcome] }
                          let evRefl := create_a2a_event "action_reflection" task_id
                            [("outcome", .s outcome),
                             ("error_description", .s error_description)]
                          if outcome == "A" && if_notetaker then
                            match vlm3 with
                            | .notetakerReply important_notes :: vlm4 =>
                              let noteCall : VlmCall :=
                                ⟨.notetaker, [screenshot_after_b64], pool2⟩
                              let pool3 := { pool2 with important_notes := important_notes }
                              let evNote := create_a2a_event "important_notes" task_id
                                [("notes", .s important_notes)]
                              let r := loopRun task_id if_notetaker n
                                ⟨pool3, screenshot_after_b64, current_width,
                                  current_height, vlm4, client1⟩
                              ⟨r.result, [evPlan, evReq, evRefl, evNote] ++ r.events,
                                [managerCall, executorCall, reflectorCall, noteCall] ++ r.calls,
                                r.pool⟩
                            | _ => ⟨.error .scriptKind, [evPlan, evReq, evRefl],
                                [managerCall, executorCall, reflectorCall], pool2⟩
                          else
                            let r := loopRun task_id if_notetaker n
                              ⟨pool2, screenshot_after_b64, current_width,
                                current_height, vlm3, client1⟩
                            ⟨r.result, [evPlan, evReq, evRefl] ++ r.events,
                              [managerCall, executorCall, reflectorCall] ++ r.calls,
                              r.pool⟩
                        | _ => ⟨.error .scriptKind, [evPlan, evReq],
                            [managerCall, executorCall], pool1⟩
        | _ => ⟨.error .scriptKind, [evPlan], [managerCall], pool1⟩
    | _ :: _ => ⟨.error .scriptKind, [], [], st.pool⟩

/-- The `InfoPool` built at mobile_agent_a2a.py 210-215. -/
def init_info_pool (instruction : String) (add_info : String) : InfoPool :=
  { instruction := instruction,
    additional_knowledge_manager := add_info,
    additional_knowledge_executor := INPUT_KNOW,
    err_to_manager_thresh := 2 }

/-- Entry point of the embedded control loop, mirroring
`_execute_task_logic`'s initialisation (mobile_agent_a2a.py 201-225: the
`InfoPool`, the initial screenshot and the assumed 1080x1920 dimensions)
before the step loop. -/
def execute_task_logic (task_id : Int) (instruction : String)
    (initial_screenshot_b64 : String) (add_info : String) (max_step : Nat)
    (if_notetaker : Bool) (vlm : List VlmReply) (client : List ClientOutcome) :
    RunResult :=
  loopRun task_id if_notetaker max_step
    ⟨init_info_pool instruction add_info, initial_screenshot_b64, 1080, 1920, vlm, client⟩

/-- Number of `task_finalized` events in an event list. -/
def countFinalized (evs : List Event) : Nat :=
  (evs.filter (fun e => e.type == "task_finalized")).length

/-- The number of `task_finalized` events `_execute_task_logic` actually
pushes for each way a run can end: two on the invalid-reply-kind path (the
explicit failure push at line 313 followed by the unconditional success push
at line 376), one on every other completed path, none when an exception
propagates. -/
def expectedFinalizedCount : TaskResult → Nat
  | .completed .invalidReply => 2
  | .completed _ => 1
  | .error _ => 0

/-- The decoded click action used by the concrete runs. -/
def clickObj : ActionObject := [("action", "click")]

/-- A well-formed action reply carrying screenshot `img`. -/
def okReply (img : String) : ReplyPayload :=
  ⟨some "action_reply", some img, some 1080, some 1920⟩

/-- Inference script for the invalid-reply run: one plan, one click. -/
def vlmOneClick : List VlmReply :=
  [.manager "t1" "No completed subgoal." "1. open the app",
   .executorReply "t2" "CLICK_ACTION_JSON" (some clickObj) "tap the icon"]

/-- Run of the control loop in which the client's reply is not of kind
`action_reply`. -/
def runInvalidReply : RunResult :=
  execute_task_logic 2001 "open the app" "IMG_BEFORE" "" 5 false vlmOneClick
    [.reply ⟨some "pong", none, none, none⟩]

/-- Run of the control loop in which the reply wait times out. -/
def runTimeoutReply : RunResult :=
  execute_task_logic 2002 "open the app" "IMG_BEFORE" "" 5 false
    [.manager "t1" "No completed subgoal." "1. open the app",
     .executorReply "t2" "CLICK_ACTION_JSON" (some clickObj) "tap the icon"]
    [.timeout]

/-- Run with exactly one full step (click action, reply `IMG_AFTER`,
reflection outcome B), then a finished plan. -/
def runOneStep : RunResult :=
  execute_task_logic 2003 "open the app" "IMG_BEFORE" "" 5 false
    [.manager "t1" "No completed subgoal." "1. open the app",
     .executorReply "t2" "CLICK_ACTION_JSON" (some clickObj) "tap the icon",
     .reflector "B" "wrong page",
     .manager "t3" "opened the app" "Finished"]
    [.reply (okReply "IMG_AFTER")]

/-- Run in which the actor's action text fails to decode as JSON and the
configured maximum step count is 1. -/
def runMalformedOneStep : RunResult :=
  execute_task_logic 2004 "open the app" "IMG_BEFORE" "" 1 false
    [.manager "t1" "No completed subgoal." "1. open the app",
     .executorReply "t2" "NOT VALID JSON" none "tap the icon"]
    []

/-- Run with two consecutive steps whose reflection outcome is B (a
repeated-failure streak reaching `err_to_manager_thresh = 2`), followed by a
third Manager call. -/
def runTwoFailures : RunResult :=
  execute_task_logic 2005 "open the app" "IMG0" "" 5 false
    [.manager "t1" "No completed subgoal." "1. step one",
     .executorReply "t2" "ACTION_JSON_1" (some clickObj) "first try",
     .reflector "B" "first error",
     .manager "t3" "No completed subgoal." "1. step one again",
     .executorReply "t4" "ACTION_JSON_2" (some clickObj) "second try",
     .reflector "B" "second error",
     .manager "t5" "gave up" "Finished"]
    [.reply (okReply "IMG1"), .reply (okReply "IMG2")]

/-- Family of runs whose single action reply is the given payload, used to
probe the loop's handling of malformed `action_reply` payloads. -/
def runWithReply (r : ReplyPayload) : RunResult :=
  execute_task_logic 2006 "open the app" "IMG_BEFORE" "" 3 false vlmOneClick
    [.reply r]

/-- Whether a recorded inference call is a Manager (planning) call. -/
def isManagerCall (c : VlmCall) : Bool :=
  match c.kind with
  | CallKind.manager => true
  | _ => false

theorem regLookup_regPop_self (r : FutureReg) (t : Int) :
    regLookup (regPop r t) t = none := by
  unfold regLookup regPop
  rw [Option.map_eq_none', List.find?_eq_none]
  intro kv hkv
  have := List.of_mem_filter hkv
  simp only [bne_iff_ne, ne_eq] at this
  simp [this]

theorem regLookup_map_replace (r : FutureReg) (t : Int) (fid : Nat)
    (h : r.any (fun kv => kv.1 == t) = true) :
    regLookup (r.map (fun kv => if kv.1 == t then (t, fid) else kv)) t = some fid := by
  induction r with
  | nil => simp at h
  | cons kv rest ih =>
    by_cases hk : (kv.1 == t) = true
    · simp [regLookup, List.find?, hk]
    · have hk' : (kv.1 == t) = false := by simpa using hk
      have hrest : rest.any (fun kv => kv.1 == t) = true := by
        simpa [List.any_cons, hk'] using h
      simpa [regLookup, List.find?, hk'] using ih hrest

theorem regLookup_append_new (r : FutureReg) (t : Int) (fid : Nat)
    (h : r.any (fun kv => kv.1 == t) = false) :
    regLookup (r ++ [(t, fid)]) t = some fid := by
  induction r with
  | nil => simp [regLookup, List.find?]
  | cons kv rest ih =>
    rw [List.any_cons, Bool.or_eq_false_iff] at h
    obtain ⟨hk, hrest⟩ := h
    simpa [regLookup, List.find?, hk] using ih hrest

theorem regLookup_regInsert_self (r : FutureReg) (t : Int) (fid : Nat) :
    regLookup (regInsert r t fid) t = some fid := by
  unfold regInsert
  split
  next h => exact regLookup_map_replace r t fid h
  next h => exact regLookup_append_new r t fid ((Bool.not_eq_true _) ▸ h)

theorem keysNodup_regInsert (r : FutureReg) (t : Int) (fid : Nat)
    (hn : keysNodup r) : keysNodup (regInsert r t fid) := by
  unfold regInsert
  split
  next h =>
    unfold keysNodup at *
    have hmap : (r.map (fun kv => if kv.1 == t then (t, fid) else kv)).map Prod.fst
        = r.map Prod.fst := by
      rw [List.map_map]
      apply List.map_congr_left
      intro kv _
      by_cases hk : kv.1 = t
      · simp [hk]
      · simp [hk]
    rw [hmap]
    exact hn
  next h =>
    have h' : r.any (fun kv => kv.1 == t) = false := (Bool.not_eq_true _) ▸ h
    rw [List.any_eq_false] at h'
    unfold keysNodup at *
    rw [List.map_append]
    apply List.Nodup.append hn (List.nodup_singleton t)
    rw [List.disjoint_singleton]
    intro hmem
    obtain ⟨kv, hkv, hfst⟩ := List.mem_map.mp hmem
    exact (h' kv hkv) (by simp [hfst])

theorem keysNodup_filter_le_one (r : FutureReg) (hn : keysNodup r) (u : Int) :
    (r.filter (fun kv => kv.1 == u)).length ≤ 1 := by
  induction r with
  | nil => simp
  | cons kv rest ih =>
    unfold keysNodup at hn
    rw [List.map_cons, List.nodup_cons] at hn
    obtain ⟨hmem, hrest⟩ := hn
    rw [List.filter_cons]
    by_cases hk : (kv.1 == u) = true
    · have hkv : kv.1 = u := eq_of_beq hk
      have hnilf : rest.filter (fun kv => kv.1 == u) = [] := by
        rw [List.filter_eq_nil_iff]
        intro a ha hcon
        apply hmem
        rw [List.mem_map]
        exact ⟨a, ha, by rw [eq_of_beq hcon, hkv]⟩
      simp [hk, hnilf]
    · have hk' : (kv.1 == u) = false := by simpa using hk
      simp only [hk', Bool.false_eq_true, if_false]
      exact ih hrest

/-- Claim C5 (confirmed): for every call to
`A2AInterfaceReal.wait_for_client_reply`, if the future is not resolved
within the timeout (`resolution = none`) then the timeout error propagates
out of the call, on a resolution the payload is returned, and on every
outcome the task's entry has been removed from the executor module's
`ACTION_REPLY_FUTURES` when the call returns or raises. -/
theorem claim_C5_wait_cleanup (store : List FutureState) (reg : FutureReg)
    (task_id : Int) (resolution : Option ReplyPayload) :
    regLookup (wait_for_client_reply store reg task_id resolution).2.2 task_id = none
    ∧ (resolution = none →
        (wait_for_client_reply store reg task_id resolution).1 = .error .timeoutError)
    ∧ (∀ v, resolution = some v →
        (wait_for_client_reply store reg task_id resolution).1 = .ok v) := by
  refine ⟨?_, ?_, ?_⟩
  · cases resolution <;> simp [wait_for_client_reply, regLookup_regPop_self]
  · intro h
    subst h
    simp [wait_for_client_reply]
  · intro v h
    subst h
    simp [wait_for_client_reply]

/-- Witness for claim C5 at a concrete input: an empty registry, task 7 and
an expiring wait. -/
theorem claim_C5_witness :
    regLookup (wait_for_client_reply [] [] 7 none).2.2 7 = none
    ∧ (wait_for_client_reply [] [] 7 none).1 = .error .timeoutError :=
  ⟨(claim_C5_wait_cleanup [] [] 7 none).1,
   (claim_C5_wait_cleanup [] [] 7 none).2.1 rfl⟩

/-- Claim C6 (confirmed): `get_action_reply_future` returns the
already-registered future unchanged when one exists and is pending, and
otherwise allocates, registers and returns a fresh pending future; after the
call the dictionary maps the task id to the returned future, that future is
unresolved, the dictionary still has pairwise-distinct keys, and it holds at
most one entry (hence at most one unresolved future) per task id. -/
theorem claim_C6_get_future (store : List FutureState) (reg : FutureReg)
    (task_id : Int) (hn : keysNodup reg) (hwf : regWF store reg) :
    (∀ fid, regLookup reg task_id = some fid → isPending store fid →
        get_action_reply_future store reg task_id = (fid, store, reg))
    ∧ regLookup (get_action_reply_future store reg task_id).2.2 task_id
        = some (get_action_reply_future store reg task_id).1
    ∧ isPending (get_action_reply_future store reg task_id).2.1
        (get_action_reply_future store reg task_id).1
    ∧ keysNodup (get_action_reply_future store reg task_id).2.2
    ∧ ∀ u, ((get_action_reply_future store reg task_id).2.2.filter
        (fun kv => kv.1 == u)).length ≤ 1 := by
  have hfresh : (store ++ [FutureState.pending]).get? store.length
      = some FutureState.pending := by
    rw [List.get?_eq_getElem?]
    exact List.getElem?_concat_length store _
  refine ⟨?_, ?_, ?_, ?_, ?_⟩
  · intro fid hlook hpend
    unfold get_action_reply_future
    rw [hlook]
    have hd : isDone store fid = false := by
      unfold isDone
      unfold isPending at hpend
      rw [hpend]
    simp [hd]
  · unfold get_action_reply_future
    cases hlook : regLookup reg task_id with
    | none => exact regLookup_regInsert_self reg task_id store.length
    | some fid =>
      cases hdone : isDone store fid with
      | true =>
        simp only [hdone, if_true]
        exact regLookup_regInsert_self reg task_id store.length
      | false =>
        simp only [hdone, Bool.false_eq_true, if_false]
        exact hlook
  · unfold get_action_reply_future isPending
    cases hlook : regLookup reg task_id with
    | none => exact hfresh
    | some fid =>
      cases hdone : isDone store fid with
      | true =>
        simp only [hdone, if_true]
        exact hfresh
      | false =>
        simp only [hdone, Bool.false_eq_true, if_false]
        unfold regLookup at hlook
        obtain ⟨kv, hfind, hkv2⟩ := Option.map_eq_some'.mp hlook
        have hmem : kv ∈ reg := List.mem_of_find?_eq_some hfind
        have hlt : kv.2 < store.length := hwf kv hmem
        have hget := List.get?_eq_get hlt
        cases hf : store.get ⟨kv.2, hlt⟩ with
        | pending => rw [← hkv2, hget, hf]
        | resolved v =>
          exfalso
          unfold isDone at hdone
          rw [← hkv2, hget, hf] at hdone
          simp at hdone
  · unfold get_action_reply_future
    cases hlook : regLookup reg task_id with
    | none => exact keysNodup_regInsert reg task_id store.length hn
    | some fid =>
      cases hdone : isDone store fid with
      | true =>
        simp only [hdone, if_true]
        exact keysNodup_regInsert reg task_id store.length hn
      | false =>
        simp only [hdone, Bool.false_eq_true, if_false]
        exact hn
  · intro u
    unfold get_action_reply_future
    cases hlook : regLookup reg task_id with
    | none =>
      exact keysNodup_filter_le_one _ (keysNodup_regInsert reg task_id store.length hn) u
    | some fid =>
      cases hdone : isDone store fid with
      | true =>
        simp only [hdone, if_true]
        exact keysNodup_filter_le_one _ (keysNodup_regInsert reg task_id store.length hn) u
      | false =>
        simp only [hdone, Bool.false_eq_true, if_false]
        exact keysNodup_filter_le_one _ hn u

/-- Witness for claim C6 at a concrete input: a store holding one pending
future registered for task 5; the call returns that future and leaves the
registry unchanged. -/
theorem claim_C6_witness :
    get_action_reply_future [FutureState.pending] [(5, 0)] 5
      = (0, [FutureState.pending], [(5, 0)]) :=
  (claim_C6_get_future [FutureState.pending] [(5, 0)] 5
      (by unfold keysNodup; decide)
      (by unfold regWF; decide)).1 0 (by decide) (by unfold isPending; decide)

/-- Claim C7 (confirmed): for every reply POST handled by
`receive_action_reply`, if no future is registered for the task id the
handler returns 404 and resolves nothing; if a pending future is registered
its result is set to the reply payload and the entry is popped; if the
registered future is already resolved the call is a warning-level no-op that
pops the entry but leaves every future, in particular the previously
delivered reply, unaltered. -/
theorem claim_C7_receive_reply (store : List FutureState) (reg : FutureReg)
    (l1_task_id : Int) (reply_data : ReplyPayload) :
    (regLookup reg l1_task_id = none →
        receive_action_reply store reg l1_task_id reply_data = (.notFound, store, reg))
    ∧ (∀ fid, regLookup reg l1_task_id = some fid →
        store.get? fid = some .pending →
        receive_action_reply store reg l1_task_id reply_data
          = (.okContinued, store.set fid (.resolved reply_data), regPop reg l1_task_id))
    ∧ (∀ fid v, regLookup reg l1_task_id = some fid →
        store.get? fid = some (.resolved v) →
        receive_action_reply store reg l1_task_id reply_data
          = (.alreadyDone, store, regPop reg l1_task_id)) := by
  refine ⟨?_, ?_, ?_⟩
  · intro h
    simp [receive_action_reply, h]
  · intro fid hlook hpend
    rw [List.get?_eq_getElem?] at hpend
    simp [receive_action_reply, hlook, hpend]
  · intro fid v hlook hres
    rw [List.get?_eq_getElem?] at hres
    simp [receive_action_reply, hlook, hres]

/-- Witness for claim C7 at a concrete input: task 3's registered future is
already resolved with payload `p`, and a second POST is a no-op that leaves
the store, hence the previously delivered reply, unchanged. -/
theorem claim_C7_witness :
    receive_action_reply [FutureState.resolved (okReply "IMG1")] [(3, 0)] 3 (okReply "IMG2")
      = (.alreadyDone, [FutureState.resolved (okReply "IMG1")], []) :=
  (claim_C7_receive_reply [FutureState.resolved (okReply "IMG1")] [(3, 0)] 3
      (okReply "IMG2")).2.2 0 (okReply "IMG1") (by decide) (by decide)

theorem reach_serverFutures_nil (s : A2AServerState) (h : Reach s) :
    s.serverFutures = [] := by
  induction h with
  | init => rfl
  | register s t _ ih => simpa [loopRegisterStep] using ih
  | wait s t resolution _ ih => simpa [loopWaitStep] using ih
  | post s t payload _ ih =>
    simp only [postReplyStep]
    unfold receive_action_reply
    rw [ih]
    simp [regLookup]

/-- Claim C4 (code bug): in every reachable state of the composed real-mode
server, a reply POST handled by `receive_action_reply` returns 404 and
changes nothing: the handler consults run_a2a_server.py's own
`ACTION_REPLY_FUTURES`, which no code ever populates, so no POSTed payload
(stale, duplicate or fresh) is ever delivered to any future the control loop
awaits.  The claimed stale-reply protection therefore holds only vacuously,
while the documented delivery of genuine replies through this endpoint never
happens. -/
theorem claim_C4_posts_never_resolve (s : A2AServerState) (h : Reach s)
    (t : Int) (payload : ReplyPayload) :
    receive_action_reply s.store s.serverFutures t payload
      = (.notFound, s.store, s.serverFutures)
    ∧ postReplyStep s t payload = s := by
  have hnil := reach_serverFutures_nil s h
  have h404 : receive_action_reply s.store s.serverFutures t payload
      = (.notFound, s.store, s.serverFutures) := by
    unfold receive_action_reply
    rw [hnil]
    simp [regLookup]
  refine ⟨h404, ?_⟩
  simp only [postReplyStep, h404]

/-- Witness for claim C4 at a concrete input: the state reached after task
1001's loop registers its reply future; the POST that should resolve that
future 404s and leaves the whole state unchanged. -/
theorem claim_C4_witness :
    receive_action_reply [FutureState.pending] [] 1001 (okReply "IMG")
      = (.notFound, [FutureState.pending], [])
    ∧ postReplyStep ⟨[FutureState.pending], [(1001, 0)], []⟩ 1001 (okReply "IMG")
      = ⟨[FutureState.pending], [(1001, 0)], []⟩ :=
  claim_C4_posts_never_resolve (loopRegisterStep ⟨[], [], []⟩ 1001)
    (Reach.register ⟨[], [], []⟩ 1001 Reach.init) 1001 (okReply "IMG")

/-- Claim C1 (counterexample): the control loop does not push exactly one
`task_finalized` event on every ending.  On a reply of unexpected kind it
pushes two (the explicit failure finalize, then the unconditional success
finalize after the loop), and on a reply timeout the error propagates and it
pushes none. -/
theorem claim_C1_counterexample :
    countFinalized runInvalidReply.events = 2
    ∧ runInvalidReply.result = .completed .invalidReply
    ∧ countFinalized runTimeoutReply.events = 0
    ∧ runTimeoutReply.result = .error .timeoutError := by decide

/-- Claim C1 (amended): for every run of the control loop, the number of
`task_finalized` events pushed is exactly one on the finished-plan,
answer-action and step-limit endings, exactly two on the
invalid-reply-kind ending, and zero whenever an exception (reply timeout,
`KeyError` on a malformed reply, or an exhausted inference script)
propagates. -/
theorem claim_C1_amended (task_id : Int) (if_notetaker : Bool) (n : Nat)
    (st : LoopState) :
    countFinalized (loopRun task_id if_notetaker n st).events
      = expectedFinalizedCount (loopRun task_id if_notetaker n st).result := by
  induction n generalizing st with
  | zero => rfl
  | succ n ih =>
    obtain ⟨pool, cur, cw, ch, vlm, client⟩ := st
    cases vlm with
    | nil => rfl
    | cons head tail =>
      cases head with
      | reflector o e => rfl
      | notetakerReply im => rfl
      | executorReply th a d de => rfl
      | manager thought csg plan =>
        show countFinalized (loopRun task_id if_notetaker (n+1) ⟨pool, cur, cw, ch, _, client⟩).events = _
        by_cases hf : strContains (pyStrip plan) "Finished" = true
        · simp only [loopRun, hf, if_true]
          rfl
        · rw [Bool.not_eq_true] at hf
          simp only [loopRun, hf, Bool.false_eq_true, if_false]
          cases tail with
          | nil => rfl
          | cons e2 tail2 =>
            cases e2 with
            | manager a b c => rfl
            | reflector o er => rfl
            | notetakerReply im => rfl
            | executorReply action_thought action_str decoded descr =>
              cases decoded with
              | none =>
                simp only [countFinalized, List.filter_cons, expectedFinalizedCount]
                have := ih ⟨{ pool with completed_plan := csg, plan := plan }, cur, cw, ch, tail2, client⟩
                simpa [countFinalized] using this
              | some action_object =>
                by_cases ha : (dictGet action_object "action" == some "answer") = true
                · simp only [ha, if_true]
                  rfl
                · rw [Bool.not_eq_true] at ha
                  simp only [ha, Bool.false_eq_true, if_false]
                  cases client with
                  | nil => rfl
                  | cons c1 client1 =>
                    cases c1 with
                    | timeout => rfl
                    | reply reply =>
                      by_cases ht : (reply.type != some "action_reply") = true
                      · simp only [ht, if_true]
                        rfl
                      · rw [Bool.not_eq_true] at ht
                        simp only [ht, Bool.false_eq_true, if_false]
                        cases hb : reply.screenshot_b64 with
                        | none => rfl
                        | some shot =>
                          cases hw : reply.screenshot_width with
                          | none => rfl
                          | some w =>
                            cases hh : reply.screenshot_height with
                            | none => rfl
                            | some hgt =>
                              cases tail2 with
                              | nil => rfl
                              | cons e3 tail3 =>
                                cases e3 with
                                | manager a b c => rfl
                                | executorReply a b c d => rfl
                                | notetakerReply im => rfl
                                | reflector outcome error_description =>
                                  by_cases ho : (outcome == "A" && if_notetaker) = true
                                  · simp only [ho, if_true]
                                    cases tail3 with
                                    | nil => rfl
                                    | cons e4 tail4 =>
                                      cases e4 with
                                      | manager a b c => rfl
                                      | executorReply a b c d => rfl
                                      | reflector a b => rfl
                                      | notetakerReply important_notes =>
                                        have := ih ⟨{ { { pool with completed_plan := csg, plan := plan } with
                                            action_history := ({ pool with completed_plan := csg, plan := plan } : InfoPool).action_history ++ [action_object],
                                            action_outcomes := ({ pool with completed_plan := csg, plan := plan } : InfoPool).action_outcomes ++ [outcome] } with
                                            important_notes := important_notes }, shot, w, hgt, tail4, client1⟩
                                        simpa [countFinalized] using this
                                  · rw [Bool.not_eq_true] at ho
                                    simp only [ho, Bool.false_eq_true, if_false]
                                    have := ih ⟨{ { pool with completed_plan := csg, plan := plan } with
                                        action_history := ({ pool with completed_plan := csg, plan := plan } : InfoPool).action_history ++ [action_object],
                                        action_outcomes := ({ pool with completed_plan := csg, plan := plan } : InfoPool).action_outcomes ++ [outcome] }, shot, w, hgt, tail3, client1⟩
                                    simpa [countFinalized] using this

/-- Claim C2 (code bug evaluation): after one completed step the loop has
appended to `action_history` and `action_outcomes` only; the reflection's
parsed `error_description` is dropped and the actor's `description` is never
stored, so `error_descriptions` and `summary_history` stay empty and the
four parallel sequences do not have equal length between steps. -/
theorem claim_C2_code_bug :
    runOneStep.pool.action_history.length = 1
    ∧ runOneStep.pool.action_outcomes.length = 1
    ∧ runOneStep.pool.error_descriptions.length = 0
    ∧ runOneStep.pool.summary_history.length = 0
    ∧ runOneStep.result = .completed .finishedPlan := by decide

/-- Claim C3 (code bug evaluation): in the step whose before-screenshot is
`IMG_BEFORE` and whose action reply carries `IMG_AFTER`, the Reflector
inference call receives the after-screenshot twice — `current_screenshot_b64`
is overwritten at mobile_agent_a2a.py line 320 before the call at lines
332-334 — instead of the before/after pair. -/
theorem claim_C3_code_bug :
    (runOneStep.calls.get? 2).map (fun c => (c.kind, c.images))
      = some (CallKind.reflector, ["IMG_AFTER", "IMG_AFTER"])
    ∧ (runOneStep.calls.get? 2).map (fun c => c.images)
      ≠ some ["IMG_BEFORE", "IMG_AFTER"] := by decide

/-- Claim C8 (counterexample): with `max_step = 1` and an actor reply whose
action text fails to decode, the run ends by step-limit exhaustion after a
single planning call — the malformed output consumed the only configured
step and no further retry happened, so malformed output does consume the
step budget and is not retried without bound. -/
theorem claim_C8_counterexample :
    runMalformedOneStep.result = .completed .exhausted
    ∧ (runMalformedOneStep.calls.filter isManagerCall).length = 1
    ∧ countFinalized runMalformedOneStep.events = 1 := by decide

/-- Claim C9 (code bug evaluation): after two consecutive steps whose
reflection outcome is B — a failure streak reaching the configured
`err_to_manager_thresh = 2` — the third Manager call still sees
`error_flag_plan = false` (the loop never sets it) and its prompt contains
no failure log (`managerFailureLog` is empty), even though the tail of
`action_outcomes` is all non-A. -/
theorem claim_C9_code_bug :
    (runTwoFailures.calls.get? 6).map
        (fun c => (c.kind, c.pool.error_flag_plan, c.pool.action_outcomes,
          managerFailureLog c.pool))
      = some (CallKind.manager, false, ["B", "B"], [])
    ∧ (runTwoFailures.calls.get? 6).map
        (fun c => (sliceLast c.pool.action_outcomes c.pool.err_to_manager_thresh).all
          (fun o => o != "A"))
      = some true := ⟨rfl, rfl⟩

/-- Claim C10 (confirmed): if the reply has type `action_reply` but lacks
any of `screenshot_b64`, `screenshot_width` or `screenshot_height`, the loop
raises a `KeyError` at the field access, the exception propagates, and no
`task_finalized` event is pushed: only the `type` field is validated before
indexing. -/
theorem claim_C10_missing_keys (r : ReplyPayload)
    (hty : r.type = some "action_reply")
    (hmiss : r.screenshot_b64 = none ∨ r.screenshot_width = none
      ∨ r.screenshot_height = none) :
    (∃ k, (runWithReply r).result = .error (.keyError k))
    ∧ countFinalized (runWithReply r).events = 0 := by
  obtain ⟨ty, sb, sw, sh⟩ := r
  simp only at hty hmiss
  subst hty
  cases sb with
  | none => exact ⟨⟨"screenshot_b64", rfl⟩, rfl⟩
  | some b =>
    cases sw with
    | none => exact ⟨⟨"screenshot_width", rfl⟩, rfl⟩
    | some w =>
      cases sh with
      | none => exact ⟨⟨"screenshot_height", rfl⟩, rfl⟩
      | some hgt => rcases hmiss with h | h | h <;> simp at h

/-- Witness for claim C10 at a concrete input: an `action_reply` payload
missing `screenshot_b64`. -/
theorem claim_C10_witness :
    (∃ k, (runWithReply ⟨some "action_reply", none, some 1080, some 1920⟩).result
      = .error (.keyError k))
    ∧ countFinalized (runWithReply
        ⟨some "action_reply", none, some 1080, some 1920⟩).events = 0 :=
  claim_C10_missing_keys ⟨some "action_reply", none, some 1080, some 1920⟩
    rfl (Or.inl rfl)

/-- Claim C8 (amended): a malformed actor reply makes the loop skip the
remainder of the step and restart from planning, but the `range(max_step)`
counter still advances, so every run performs at most `max_step` planning
(Manager) calls — retries after malformed output are bounded by the
remaining step budget, not unbounded. -/
theorem claim_C8_amended (task_id : Int) (if_notetaker : Bool) (n : Nat)
    (st : LoopState) :
    ((loopRun task_id if_notetaker n st).calls.filter isManagerCall).length ≤ n := by
  induction n generalizing st with
  | zero => simp [loopRun]
  | succ n ih =>
    obtain ⟨pool, cur, cw, ch, vlm, client⟩ := st
    cases vlm with
    | nil => simp [loopRun]
    | cons head tail =>
      cases head with
      | reflector o e => simp [loopRun, isManagerCall]
      | notetakerReply im => simp [loopRun, isManagerCall]
      | executorReply th a d de => simp [loopRun, isManagerCall]
      | manager thought csg plan =>
        show ((loopRun task_id if_notetaker (n+1)
          ⟨pool, cur, cw, ch, _, client⟩).calls.filter isManagerCall).length ≤ n + 1
        by_cases hf : strContains (pyStrip plan) "Finished" = true
        · simp only [loopRun, hf, if_true]
          simp [isManagerCall]
        · rw [Bool.not_eq_true] at hf
          simp only [loopRun, hf, Bool.false_eq_true, if_false]
          cases tail with
          | nil => simp [isManagerCall]
          | cons e2 tail2 =>
            cases e2 with
            | manager a b c => simp [isManagerCall]
            | reflector o er => simp [isManagerCall]
            | notetakerReply im => simp [isManagerCall]
            | executorReply action_thought action_str decoded descr =>
              cases decoded with
              | none =>
                have h := ih ⟨{ pool with completed_plan := csg, plan := plan },
                  cur, cw, ch, tail2, client⟩
                simp only [List.filter_cons, isManagerCall, List.length_cons]
                simpa [isManagerCall] using Nat.succ_le_succ h
              | some action_object =>
                by_cases ha : (dictGet action_object "action" == some "answer") = true
                · simp only [ha, if_true]
                  simp [isManagerCall]
                · rw [Bool.not_eq_true] at ha
                  simp only [ha, Bool.false_eq_true, if_false]
                  cases client with
                  | nil => simp [isManagerCall]
                  | cons c1 client1 =>
                    cases c1 with
                    | timeout => simp [isManagerCall]
                    | reply reply =>
                      by_cases ht : (reply.type != some "action_reply") = true
                      · simp only [ht, if_true]
                        simp [isManagerCall]
                      · rw [Bool.not_eq_true] at ht
                        simp only [ht, Bool.false_eq_true, if_false]
                        cases hb : reply.screenshot_b64 with
                        | none => simp [isManagerCall]
                        | some shot =>
                          cases hw : reply.screenshot_width with
                          | none => simp [isManagerCall]
                          | some w =>
                            cases hh : reply.screenshot_height with
                            | none => simp [isManagerCall]
                            | some hgt =>
                              cases tail2 with
                              | nil => simp [isManagerCall]
                              | cons e3 tail3 =>
                                cases e3 with
                                | manager a b c => simp [isManagerCall]
                                | executorReply a b c d => simp [isManagerCall]
                                | notetakerReply im => simp [isManagerCall]
                                | reflector outcome error_description =>
                                  by_cases ho : (outcome == "A" && if_notetaker) = true
                                  · simp only [ho, if_true]
                                    cases tail3 with
                                    | nil => simp [isManagerCall]
                                    | cons e4 tail4 =>
                                      cases e4 with
                                      | manager a b c => simp [isManagerCall]
                                      | executorReply a b c d => simp [isManagerCall]
                                      | reflector a b => simp [isManagerCall]
                                      | notetakerReply important_notes =>
                                        have h := ih ⟨{ { { pool with completed_plan := csg, plan := plan } with
                                            action_history := ({ pool with completed_plan := csg, plan := plan } : InfoPool).action_history ++ [action_object],
                                            action_outcomes := ({ pool with completed_plan := csg, plan := plan } : InfoPool).action_outcomes ++ [outcome] } with
                                            important_notes := important_notes }, shot, w, hgt, tail4, client1⟩
                                        simpa [isManagerCall] using Nat.succ_le_succ h
                                  · rw [Bool.not_eq_true] at ho
                                    simp only [ho, Bool.false_eq_true, if_false]
                                    have h := ih ⟨{ { pool with completed_plan := csg, plan := plan } with
                                        action_history := ({ pool with completed_plan := csg, plan := plan } : InfoPool).action_history ++ [action_object],
                                        action_outcomes := ({ pool with completed_plan := csg, plan := plan } : InfoPool).action_outcomes ++ [outcome] }, shot, w, hgt, tail3, client1⟩
                                    simpa [isManagerCall] using Nat.succ_le_succ h
